import Mathlib

/-!
Verification development for the NOYIS FOODS point-of-sale front-end.

The development shallowly embeds the genuine logic of the repository:
the sales aggregation engine of `AdminDashboard` (date extraction, KPI
roll-up, 6-month trend series, filtered/paginated listing, CSV export),
the month-over-month delta classification of `RevenueChart`, the offline
session cache of `AppContext` (`hashWithSalt`, `persistOfflineSession`,
`tryOfflineSessionLogin`), and the sale write paths (`SalesForm` price
and total computation, `addSale`, `updateSale`).

Conventions of the embedding:
* JavaScript numbers used as currency amounts are modelled as `ℚ`
  (exact arithmetic; the claims under study are not about binary
  floating-point rounding).
* JavaScript strings are Lean `String`s; `String(n)` on a natural
  number is modelled by `natToStr` (decimal representation), and
  `s.split(c)` by `splitOnChar` on the character list of `s`.
* A JavaScript `Date` is modelled by its local-calendar components
  `(year, month, day)` with `month` already 1-based (i.e. the value of
  `getMonth() + 1`); this is valid for years ≥ 100, where the `Date`
  constructor does not remap the year.
* `undefined` / absent values are modelled with `Option`.
-/

/-- Fuelled helper for `digitsOf`: the fuel only drives structural
termination and never runs out when it exceeds the number. -/
def digitsOfCore : Nat → Nat → List Char
  | 0, _ => []
  | fuel + 1, n =>
    if n < 10 then [Nat.digitChar n]
    else digitsOfCore fuel (n / 10) ++ [Nat.digitChar (n % 10)]

/-- Decimal digit characters of a natural number, most significant first.
Embeds the JavaScript conversion `String(n)` of a non-negative integer. -/
def digitsOf (n : Nat) : List Char :=
  digitsOfCore (n + 1) n

/-- Decimal string of a natural number (JavaScript `String(n)`). -/
def natToStr (n : Nat) : String :=
  String.mk (digitsOf n)

/-- Embeds `String(n).padStart(2, '0')` as used for month and day
numbers: a single decimal digit is prefixed with one zero. -/
def pad2 (n : Nat) : String :=
  if n < 10 then "0" ++ natToStr n else natToStr n

/-- Embeds JavaScript `s.split(sep)` for a single-character separator,
working on the character list of the string.  `split` of the empty
string yields `[""]`, and a trailing separator yields a final `""`,
exactly as in JavaScript. -/
def splitOnChar (sep : Char) : List Char → List (List Char)
  | [] => [[]]
  | c :: cs =>
    match splitOnChar sep cs with
    | r :: rs => if c = sep then [] :: r :: rs else (c :: r) :: rs
    | [] => [[]]

/-- Embeds `s.slice(0, 3)` on a string. -/
def jsTake3 (s : String) : String :=
  String.mk (s.data.take 3)

/-- Embeds `s.slice(2)` on a string. -/
def jsSlice2 (s : String) : String :=
  String.mk (s.data.drop 2)

/-- Local-calendar date components of a JavaScript `Date`, with `month`
the 1-based value `getMonth() + 1` and `day` the value of `getDate()`. -/
structure LocalDate where
  year : Nat
  month : Nat
  day : Nat
deriving DecidableEq

/-- The `Sale` record of `AppContext` (`sales` collection documents as
read into the client).  `time` is optional, `userEmail` may be null,
`createdAt` is the server-assigned creation timestamp reduced to its
local-calendar date components (the only part the dashboard reads). -/
structure Sale where
  id : String
  userId : String
  userEmail : Option String
  product : String
  flavor : String
  unit : Nat
  price : ℚ
  total : ℚ
  paymentMode : String
  date : String
  time : Option String
  createdAt : Option LocalDate
deriving DecidableEq

/-- Embeds the regular-expression test `/^\d{4}-\d{2}-\d{2}$/.test s`
of `extractDateOnly`. -/
def matchesYMD (s : String) : Bool :=
  match s.data with
  | [c0, c1, c2, c3, c4, c5, c6, c7, c8, c9] =>
    c0.isDigit && c1.isDigit && c2.isDigit && c3.isDigit && c4 == '-' &&
    c5.isDigit && c6.isDigit && c7 == '-' && c8.isDigit && c9.isDigit
  | _ => false

/-- Formats a local date as `YYYY-MM-DD`, embedding the template
`` `${y}-${m}-${dy}` `` of `extractDateOnly`'s `createdAt` branch
(with `m` and `dy` zero-padded to two digits). -/
def formatLocalDate (d : LocalDate) : String :=
  natToStr d.year ++ "-" ++ pad2 d.month ++ "-" ++ pad2 d.day

/-- Embeds `extractDateOnly` of `AdminDashboard`: a plain `YYYY-MM-DD`
string is returned as-is; a non-empty date containing `'T'` yields
`dateStr.split('T')[0]`; an empty/absent date falls back to the
local-calendar date of `createdAt` when present; otherwise `""`. -/
def extractDateOnly (s : Sale) : String :=
  let dateStr := s.date
  if dateStr != "" && matchesYMD dateStr then dateStr
  else if dateStr != "" && dateStr.data.contains 'T' then
    String.mk ((splitOnChar 'T' dateStr.data).headD [])
  else if dateStr == "" then
    match s.createdAt with
    | some d => formatLocalDate d
    | none => ""
  else ""

/-- The date components of a record, embedding
`dateStr.split('-')` with array destructuring: element `i` of the
split, `none` when the split has fewer than `i + 1` components
(JavaScript `undefined`, which compares unequal to every string). -/
def dateComp (dateStr : String) (i : Nat) : Option String :=
  ((splitOnChar '-' dateStr.data).map String.mk).get? i

/-- The cursor date string `` `${selectedYear}-${selectedMonth}-${selectedDay}` ``. -/
def selectedDateStr (selY selM selD : String) : String :=
  selY ++ "-" ++ selM ++ "-" ++ selD

/-- The six KPI accumulators of the dashboard's KPI `useMemo`. -/
structure KPIs where
  dayTotal : ℚ
  dayCount : Nat
  monthTotal : ℚ
  monthCount : Nat
  yearTotal : ℚ
  yearCount : Nat
deriving DecidableEq

/-- One loop iteration of the KPI `useMemo` of `AdminDashboard`: skip
records with no resolvable date, and add the record's total (and a
count of 1) to the year bucket when the year component matches, nested
into the month bucket when additionally the month matches, nested into
the day bucket when additionally the day matches. -/
def kpiStep (selY selM selD : String) (acc : KPIs) (s : Sale) : KPIs :=
  let dateStr := extractDateOnly s
  if dateStr == "" then acc
  else
    let t := s.total
    if dateComp dateStr 0 == some selY then
      let accY := { acc with yearTotal := acc.yearTotal + t, yearCount := acc.yearCount + 1 }
      if dateComp dateStr 1 == some selM then
        let accM := { accY with monthTotal := accY.monthTotal + t, monthCount := accY.monthCount + 1 }
        if dateComp dateStr 2 == some selD then
          { accM with dayTotal := accM.dayTotal + t, dayCount := accM.dayCount + 1 }
        else accM
      else accY
    else acc

/-- The KPI `useMemo` of `AdminDashboard`: fold `kpiStep` over the
dataset starting from all-zero accumulators. -/
def computeKPIs (ds : List Sale) (selY selM selD : String) : KPIs :=
  ds.foldl (kpiStep selY selM selD) ⟨0, 0, 0, 0, 0, 0⟩

/-- A record matches the cursor year: it has a resolvable date whose
first `-`-component equals `selectedYear` (the year-bucket condition of
the KPI loop). -/
def yearMatch (selY : String) (s : Sale) : Bool :=
  extractDateOnly s != "" && dateComp (extractDateOnly s) 0 == some selY

/-- A record matches the cursor year and month (the month-bucket
condition of the KPI loop). -/
def monthMatch (selY selM : String) (s : Sale) : Bool :=
  yearMatch selY s && dateComp (extractDateOnly s) 1 == some selM

/-- A record matches the cursor year, month and day (the day-bucket
condition of the KPI loop). -/
def dayMatch (selY selM selD : String) (s : Sale) : Bool :=
  monthMatch selY selM s && dateComp (extractDateOnly s) 2 == some selD

/-- The month bucket key of a record for the trend series, embedding
the `monthlySeries` loop body: skip records with no resolvable date,
destructure `dateStr.split('-')` into `[year, month]`, skip when either
is missing or empty (falsy), otherwise key `` `${year}-${month}` ``. -/
def trendKey (s : Sale) : Option String :=
  let dateStr := extractDateOnly s
  if dateStr == "" then none
  else
    let year := (dateComp dateStr 0).getD ""
    let month := (dateComp dateStr 1).getD ""
    if year == "" || month == "" then none
    else some (year ++ "-" ++ month)

/-- Embeds `totals.set(key, (totals.get(key) || 0) + amount)` on a
`Map` represented as an insertion-ordered association list: an existing
key is updated in place, a new key is appended. -/
def insertAdd : List (String × ℚ) → String → ℚ → List (String × ℚ)
  | [], k, v => [(k, v)]
  | (k₀, v₀) :: rest, k, v =>
    if k₀ = k then (k₀, v₀ + v) :: rest else (k₀, v₀) :: insertAdd rest k v

/-- The totals `Map` built by the first loop of `monthlySeries`. -/
def buildTotals (ds : List Sale) : List (String × ℚ) :=
  ds.foldl
    (fun m s =>
      match trendKey s with
      | none => m
      | some k => insertAdd m k s.total)
    []

/-- Embeds `totals.get(key) || 0`. -/
def mapGetD (m : List (String × ℚ)) (k : String) : ℚ :=
  (m.lookup k).getD 0

/-- The `monthOptions` table of `AdminDashboard` (value/label pairs). -/
def monthOptions : List (String × String) :=
  [("01", "January"), ("02", "February"), ("03", "March"), ("04", "April"),
   ("05", "May"), ("06", "June"), ("07", "July"), ("08", "August"),
   ("09", "September"), ("10", "October"), ("11", "November"), ("12", "December")]

/-- Embeds `getMonthName`: look the two-digit month number up in
`monthOptions` and return its label, or the input itself when absent. -/
def getMonthName (monthNum : String) : String :=
  match monthOptions.find? (fun o => o.1 == monthNum) with
  | some o => o.2
  | none => monthNum

/-- One point of the trend series (`key`, `label`, `value`,
`isCurrent`). -/
structure SeriesPoint where
  key : String
  label : String
  value : ℚ
  isCurrent : Bool
deriving DecidableEq

/-- The `(year, month)` pair of the `i`-th trend bucket, embedding the
`Date` arithmetic `new Date(start.getFullYear(), start.getMonth() + i, 1)`
where `start` is five months before the first of the current month:
months are counted linearly as `year * 12 + (month - 1)` and mapped
back by division and remainder, which is exactly the `Date`
normalisation for years ≥ 100. -/
def seriesYM (nowY nowM i : Nat) : Nat × Nat :=
  let t := nowY * 12 + (nowM - 1) - 5 + i
  (t / 12, t % 12 + 1)

/-- The successor of a `(year, month)` pair in calendar order. -/
def nextMonth (ym : Nat × Nat) : Nat × Nat :=
  if ym.2 = 12 then (ym.1 + 1, 1) else (ym.1, ym.2 + 1)

/-- The `monthlySeries` `useMemo` of `AdminDashboard`: bucket the
dataset by `(year, month)` key, then emit exactly six points ending at
the real current month `(nowY, nowM)` (the series takes no cursor
argument: it is anchored to now and independent of the cursor), each
with key `` `${year}-${monthNumber}` `` (month zero-padded), label
`` `${getMonthName(monthNumber).slice(0, 3)} ${String(year).slice(2)}` ``,
value `totals.get(key) || 0`, and `isCurrent` on the last point. -/
def monthlySeries (ds : List Sale) (nowY nowM : Nat) : List SeriesPoint :=
  let totals := buildTotals ds
  (List.range 6).map (fun i =>
    let ym := seriesYM nowY nowM i
    let key := natToStr ym.1 ++ "-" ++ pad2 ym.2
    { key := key
      label := jsTake3 (getMonthName (pad2 ym.2)) ++ " " ++ jsSlice2 (natToStr ym.1)
      value := mapGetD totals key
      isCurrent := i == 5 })

/-- The time-of-day sort key: `a.time || ''` (a record without a time
sorts as the empty string). -/
def timeOf (s : Sale) : String :=
  s.time.getD ""

/-- The descending-time comparator of `filteredRecent`:
`timeB.localeCompare(timeA)` orders `a` before `b` exactly when
`timeOf b ≤ timeOf a` lexicographically. -/
def timeDesc (a b : Sale) : Bool :=
  timeOf b ≤ timeOf a

/-- The `filteredRecent` `useMemo` of `AdminDashboard`: keep the records
whose extracted date equals the cursor date string, then sort by
time-of-day descending (a stable sort with the `timeDesc` comparator,
as JavaScript `Array.prototype.sort` is). -/
def filteredRecent (ds : List Sale) (selY selM selD : String) : List Sale :=
  (ds.filter (fun s => extractDateOnly s == selectedDateStr selY selM selD)).mergeSort timeDesc

/-- The fixed page size `RECORDS_PER_PAGE` of `AdminDashboard`. -/
def RECORDS_PER_PAGE : Nat := 5

/-- Embeds `Math.ceil(filteredRecent.length / RECORDS_PER_PAGE)`. -/
def totalPages (ds : List Sale) (selY selM selD : String) : Nat :=
  ((filteredRecent ds selY selM selD).length + (RECORDS_PER_PAGE - 1)) / RECORDS_PER_PAGE

/-- The `paginatedRecent` `useMemo`: `slice(start, start + 5)` of the
filtered listing for a 1-based page number. -/
def paginatedRecent (ds : List Sale) (selY selM selD : String) (currentPage : Nat) : List Sale :=
  (((filteredRecent ds selY selM selD).drop ((currentPage - 1) * RECORDS_PER_PAGE)).take
    RECORDS_PER_PAGE)

/-- The dashboard state tracked by `useState`: the three cursor
selectors and the 1-based current page. -/
structure DashboardState where
  selectedYear : String
  selectedMonth : String
  selectedDay : String
  currentPage : Nat
deriving DecidableEq

/-- Embeds `setSelectedYear` combined with the reset effect: when the stored
year actually changes, the effect keyed on the cursor fires and resets
`currentPage` to 1 (a set to the identical value is a no-op re-render
and leaves the state unchanged). -/
def setSelectedYear (st : DashboardState) (y : String) : DashboardState :=
  if y = st.selectedYear then st
  else { st with selectedYear := y, currentPage := 1 }

/-- Embeds `setSelectedMonth` combined with the reset effect. -/
def setSelectedMonth (st : DashboardState) (m : String) : DashboardState :=
  if m = st.selectedMonth then st
  else { st with selectedMonth := m, currentPage := 1 }

/-- Embeds `setSelectedDay` combined with the reset effect. -/
def setSelectedDay (st : DashboardState) (d : String) : DashboardState :=
  if d = st.selectedDay then st
  else { st with selectedDay := d, currentPage := 1 }

/-- Embeds the body of `` v.replace(/"/g, '""') `` on the character
list: each double-quote character is doubled. -/
def escBody : List Char → List Char
  | [] => []
  | c :: cs => if c = '"' then '"' :: '"' :: escBody cs else c :: escBody cs

/-- The `esc` helper of `exportCSV`: wrap the value in double quotes
with embedded double quotes doubled. -/
def esc (v : String) : String :=
  String.mk ('"' :: (escBody v.data ++ ['"']))

/-- The date cell of an exported row before `esc` is applied:
`` r.date ? `="${r.date}"` : '' `` — the extra `="..."` wrapper defeats
spreadsheet auto-date conversion. -/
def dateCell (date : String) : String :=
  if date == "" then "" else "=\"" ++ date ++ "\""

/-- Collapse doubled double-quote characters back to single ones (the
inverse of `escBody`, as a CSV consumer un-escapes a quoted cell). -/
def collapseQuotes : List Char → List Char
  | [] => []
  | [c] => [c]
  | c :: d :: rest =>
    if c = '"' ∧ d = '"' then '"' :: collapseQuotes rest
    else c :: collapseQuotes (d :: rest)

/-- Un-escape an emitted CSV cell, following the spec's quoting rules
in reverse: strip the enclosing double quotes and collapse doubled
double quotes; anything not quote-enclosed is returned unchanged. -/
def csvUnescape (s : String) : String :=
  if s.data.head? = some '"' ∧ s.data.getLast? = some '"' ∧ 2 ≤ s.data.length then
    String.mk (collapseQuotes ((s.data.drop 1).dropLast))
  else s

/-- Embeds `Math.abs(x).toFixed(1)` for the delta percentage: the
decimal string of the percentage rounded to one fractional digit
(rounding half away from zero; the argument is always non-negative
where this is used). -/
def toFixed1 (q : ℚ) : String :=
  let n : Int := ⌊q * 10 + 1 / 2⌋
  toString (n / 10) ++ "." ++ toString (n % 10)

/-- The `deltaCopy` classification of `RevenueChart`: previous = 0 and
current > 0 gives the qualitative new indicator; previous = 0 and
current = 0 gives the neutral copy; previous > 0 gives a directional
marker and the absolute percentage `(delta / previous) * 100` to one
decimal; every other case keeps the initial neutral copy. -/
def deltaCopy (previousMonthTotal currentMonthTotal : ℚ) : String :=
  let delta := currentMonthTotal - previousMonthTotal
  let deltaPositive := delta ≥ 0
  if previousMonthTotal = 0 ∧ currentMonthTotal > 0 then "▲ New vs last month"
  else if previousMonthTotal = 0 ∧ currentMonthTotal = 0 then "— vs last month"
  else if previousMonthTotal > 0 then
    (if deltaPositive then "▲ " else "▼ ") ++ toFixed1 |delta / previousMonthTotal * 100| ++
      "% vs last month"
  else "— vs last month"

/-- The platform environment the offline session cache runs in:
whether `window`/`document` exist (`isBrowser`), whether `TextEncoder`
exists, whether `window.crypto.subtle` is available, and the platform's
SHA-256-to-lowercase-hex digest (external to the repository, taken as
an uninterpreted function of the input byte list). -/
structure CryptoEnv where
  isBrowser : Bool
  hasTextEncoder : Bool
  hasSubtle : Bool
  sha256hex : List Nat → String

/-- The UTF-8 bytes of a string, embedding `new TextEncoder().encode`. -/
def utf8Bytes (value : String) : List Nat :=
  value.toUTF8.toList.map UInt8.toNat

/-- Embeds `hashWithSalt` of `AppContext`: without `TextEncoder` or
`window.crypto.subtle` the input value is returned unchanged; otherwise
the SHA-256 hex digest of the salt bytes followed by the UTF-8 bytes of
the value. -/
def hashWithSalt (env : CryptoEnv) (value : String) (salt : List Nat) : String :=
  if !env.hasTextEncoder || !env.hasSubtle then value
  else env.sha256hex (salt ++ utf8Bytes value)

/-- The minimal user record persisted by the offline session cache. -/
structure CachedUser where
  uid : String
  email : Option String
  displayName : Option String
deriving DecidableEq

/-- The `CachedSession` payload stored under `offlineSessionCache`. -/
structure CachedSession where
  email : String
  salt : List Nat
  hash : String
  user : CachedUser
deriving DecidableEq

/-- Embeds `persistOfflineSession`: outside a browser or without
`window.crypto.subtle` nothing is written; otherwise the single cache
slot is overwritten with the email, the (randomly generated, here
parameterised) salt, the salted digest of the plaintext password, and
the minimal user record. -/
def persistOfflineSession (env : CryptoEnv) (salt : List Nat) (email password : String)
    (user : CachedUser) : Option CachedSession :=
  if !env.isBrowser || !env.hasSubtle then none
  else some { email := email, salt := salt, hash := hashWithSalt env password salt, user := user }

/-- Embeds `tryOfflineSessionLogin`: fail outside a browser, with no
cached entry (or an unparseable one, subsumed in `none`), with a
mismatched email, or with a digest mismatch; otherwise return the
cached minimal user record.  Every failure is the same `none`. -/
def tryOfflineSessionLogin (env : CryptoEnv) (cache : Option CachedSession)
    (email password : String) : Option CachedUser :=
  if !env.isBrowser then none
  else
    match cache with
    | none => none
    | some session =>
      if session.email != email then none
      else if hashWithSalt env password session.salt != session.hash then none
      else some session.user

/-- A flavor entry of the catalog (`name`, unit `price`). -/
structure Flavor where
  name : String
  price : ℚ
deriving DecidableEq

/-- A catalog product (`id`, display `name`, ordered `flavors`). -/
structure Product where
  id : String
  name : String
  flavors : List Flavor
deriving DecidableEq

/-- The `price` `useMemo` of `SalesForm`: the price of the selected
flavor of the selected product (matched by id or name), 0 when either
is not found (`selectedFlavor?.price || 0`). -/
def priceFor (products : List Product) (product flavor : String) : ℚ :=
  match products.find? (fun p => p.id == product || p.name == product) with
  | none => 0
  | some selectedProduct =>
    match selectedProduct.flavors.find? (fun f => f.name == flavor) with
    | none => 0
    | some selectedFlavor => selectedFlavor.price

/-- The `total` `useMemo` of `SalesForm`: `price * unit`. -/
def formTotal (products : List Product) (product flavor : String) (unit : Nat) : ℚ :=
  priceFor products product flavor * unit

/-- The payload `SalesForm` passes to `addSale` on a create submit:
the selected fields plus the memoised `price` and `total`. -/
structure SalePayload where
  product : String
  flavor : String
  unit : Nat
  price : ℚ
  total : ℚ
  paymentMode : String
deriving DecidableEq

/-- The payload of `addSale({ product, flavor, unit, price, total, paymentMode })`
built by `SalesForm.handleSubmit` in the create branch. -/
def formCreatePayload (products : List Product) (product flavor : String) (unit : Nat)
    (paymentMode : String) : SalePayload :=
  { product := product, flavor := flavor, unit := unit,
    price := priceFor products product flavor,
    total := formTotal products product flavor unit,
    paymentMode := paymentMode }

/-- Embeds the document written by `addSale` of `AppContext`: the
store-assigned id and `createdAt`, the authenticated user's uid and
email, the payload fields passed through verbatim (the store does not
recompute `total`), `paymentMode` defaulted to `POS` when falsy, and
the current local date and time. -/
def addSaleDoc (newId : String) (uid : String) (userEmail : Option String)
    (nowDate nowTime : String) (createdAt : Option LocalDate) (sale : SalePayload) : Sale :=
  { id := newId, userId := uid, userEmail := userEmail,
    product := sale.product, flavor := sale.flavor, unit := sale.unit,
    price := sale.price, total := sale.total,
    paymentMode := if sale.paymentMode == "" then "POS" else sale.paymentMode,
    date := nowDate, time := some nowTime, createdAt := createdAt }

/-- A `Partial<Sale>` update object as accepted by `updateSale`: every
field of `Sale` may be present or absent (`undefined`).  For `time` the
carried value is itself optional, matching `time?: string`. -/
structure SaleUpdates where
  id : Option String := none
  userId : Option String := none
  userEmail : Option (Option String) := none
  product : Option String := none
  flavor : Option String := none
  unit : Option Nat := none
  price : Option ℚ := none
  total : Option ℚ := none
  paymentMode : Option String := none
  date : Option String := none
  time : Option (Option String) := none
  createdAt : Option (Option LocalDate) := none
deriving DecidableEq

/-- Embeds `updateSale` of `AppContext` applied to the stored record:
only `product`, `flavor`, `unit`, `price`, `total`, `paymentMode`,
`date` and `time` are copied into the Firestore payload when they are
not `undefined`; every other field of the record — in particular `id`,
`userId`, `userEmail` and `createdAt` — is left as it was, whatever the
caller put in the update object. -/
def applyUpdateSale (r : Sale) (u : SaleUpdates) : Sale :=
  { r with
    product := u.product.getD r.product,
    flavor := u.flavor.getD r.flavor,
    unit := u.unit.getD r.unit,
    price := u.price.getD r.price,
    total := u.total.getD r.total,
    paymentMode := u.paymentMode.getD r.paymentMode,
    date := u.date.getD r.date,
    time := u.time.getD r.time }

/-- The update object `SalesForm.handleSubmit` passes to `updateSale`
in the edit branch:
`{ product, flavor, unit, price, total, paymentMode, date: editingSale.date, time: editingSale.time }`
with `price` and `total` from the form memos.  When `editingSale.time`
is `undefined` the `time` property of the object is `undefined`, which
`updateSale`'s `!== undefined` allow-list then skips. -/
def formEditUpdates (products : List Product) (product flavor : String) (unit : Nat)
    (paymentMode : String) (editingSale : Sale) : SaleUpdates :=
  { product := some product, flavor := some flavor, unit := some unit,
    price := some (priceFor products product flavor),
    total := some (formTotal products product flavor unit),
    paymentMode := some paymentMode,
    date := some editingSale.date,
    time := editingSale.time.map some }

/-- A concrete sale record with a plain `YYYY-MM-DD` date, used to
instantiate proved properties on concrete inputs. -/
def wSale : Sale :=
  { id := "s1", userId := "u1", userEmail := some "alice@x.com",
    product := "Yoghurt", flavor := "Plain", unit := 1, price := 850, total := 850,
    paymentMode := "POS", date := "2024-03-05", time := some "10:22:00",
    createdAt := some ⟨2024, 3, 5⟩ }

/-- The same transaction carried with a timestamp-with-time date string. -/
def wSaleT : Sale :=
  { wSale with date := "2024-03-05T10:22:00Z" }

/-- A record with no date field and a creation timestamp. -/
def wSaleCreatedAt : Sale :=
  { wSale with date := "", createdAt := some ⟨2024, 3, 5⟩ }

/-- A record with no date field and no creation timestamp: no
resolvable date at all. -/
def wSaleNoDate : Sale :=
  { wSale with date := "", createdAt := none }

/-- The default series point used with `List.getD`. -/
def seriesDefault : SeriesPoint :=
  { key := "", label := "", value := 0, isCurrent := false }

/-- A browser environment with both `TextEncoder` and
`window.crypto.subtle` available; the platform digest is left
uninterpreted (a constant suffices for concrete instantiation). -/
def wEnv : CryptoEnv :=
  { isBrowser := true, hasTextEncoder := true, hasSubtle := true, sha256hex := fun _ => "h" }

/-- A browser environment where `TextEncoder` is unavailable but
`window.crypto.subtle` is available. -/
def wEnvNoEncoder : CryptoEnv :=
  { isBrowser := true, hasTextEncoder := false, hasSubtle := true, sha256hex := fun _ => "h" }

/-- A concrete minimal cached user record. -/
def wUser : CachedUser :=
  { uid := "uid1", email := some "alice@x.com", displayName := none }

/-- The cache entry `persistOfflineSession` writes in `wEnv` for
`("alice@x.com", "pw1")` with salt `[0]`. -/
def wSess : CachedSession :=
  { email := "alice@x.com", salt := [0], hash := "h", user := wUser }

lemma splitOnChar_nil (sep : Char) : splitOnChar sep [] = [[]] := rfl

lemma splitOnChar_cons (sep c : Char) (cs : List Char) :
    splitOnChar sep (c :: cs) =
      match splitOnChar sep cs with
      | r :: rs => if c = sep then [] :: r :: rs else (c :: r) :: rs
      | [] => [[]] := rfl

lemma splitOnChar_ne_nil (sep : Char) (l : List Char) : splitOnChar sep l ≠ [] := by
  induction l with
  | nil => simp [splitOnChar_nil]
  | cons c cs ih =>
    rw [splitOnChar_cons]
    cases h : splitOnChar sep cs with
    | nil => simp
    | cons r rs => by_cases hc : c = sep <;> simp [hc]

lemma splitOnChar_not_mem (sep : Char) (l : List Char) (h : sep ∉ l) :
    splitOnChar sep l = [l] := by
  induction l with
  | nil => rfl
  | cons c cs ih =>
    rw [splitOnChar_cons, ih (by intro hm; exact h (List.mem_cons_of_mem _ hm))]
    have hc : ¬ c = sep := by
      intro hc; exact h (hc ▸ List.mem_cons_self c cs)
    simp [hc]

lemma splitOnChar_append (sep : Char) (a b : List Char) (h : sep ∉ a) :
    splitOnChar sep (a ++ sep :: b) = a :: splitOnChar sep b := by
  induction a with
  | nil =>
    simp only [List.nil_append, splitOnChar_cons]
    cases hb : splitOnChar sep b with
    | nil => exact absurd hb (splitOnChar_ne_nil sep b)
    | cons r rs => simp
  | cons c cs ih =>
    have hc : ¬ c = sep := by
      intro hc; exact h (hc ▸ List.mem_cons_self c cs)
    rw [List.cons_append, splitOnChar_cons,
      ih (by intro hm; exact h (List.mem_cons_of_mem _ hm))]
    simp [hc]

lemma strMkData (s : String) : String.mk s.data = s := by
  cases s; rfl

lemma selectedDateStr_data (selY selM selD : String) :
    (selectedDateStr selY selM selD).data =
      selY.data ++ '-' :: (selM.data ++ '-' :: selD.data) := by
  simp [selectedDateStr, String.data_append]

lemma dateComp_selectedDateStr (selY selM selD : String)
    (hY : '-' ∉ selY.data) (hM : '-' ∉ selM.data) (hD : '-' ∉ selD.data) :
    dateComp (selectedDateStr selY selM selD) 0 = some selY ∧
    dateComp (selectedDateStr selY selM selD) 1 = some selM ∧
    dateComp (selectedDateStr selY selM selD) 2 = some selD := by
  have hsplit : splitOnChar '-' (selectedDateStr selY selM selD).data =
      [selY.data, selM.data, selD.data] := by
    rw [selectedDateStr_data, splitOnChar_append _ _ _ hY, splitOnChar_append _ _ _ hM,
      splitOnChar_not_mem _ _ hD]
  simp [dateComp, hsplit, strMkData]

lemma selectedDateStr_ne_empty (selY selM selD : String) :
    selectedDateStr selY selM selD ≠ "" := by
  intro h
  have : (selectedDateStr selY selM selD).data = [] := by rw [h]
  rw [selectedDateStr_data] at this
  simp at this

lemma kpiStep_char (selY selM selD : String) (acc : KPIs) (s : Sale) :
    kpiStep selY selM selD acc s =
      { dayTotal := acc.dayTotal + (if dayMatch selY selM selD s then s.total else 0),
        dayCount := acc.dayCount + (if dayMatch selY selM selD s then 1 else 0),
        monthTotal := acc.monthTotal + (if monthMatch selY selM s then s.total else 0),
        monthCount := acc.monthCount + (if monthMatch selY selM s then 1 else 0),
        yearTotal := acc.yearTotal + (if yearMatch selY s then s.total else 0),
        yearCount := acc.yearCount + (if yearMatch selY s then 1 else 0) } := by
  simp only [kpiStep, yearMatch, monthMatch, dayMatch]
  by_cases h0 : extractDateOnly s = "" <;>
    by_cases h1 : dateComp (extractDateOnly s) 0 = some selY <;>
      by_cases h2 : dateComp (extractDateOnly s) 1 = some selM <;>
        by_cases h3 : dateComp (extractDateOnly s) 2 = some selD <;>
          simp [h0, h1, h2, h3, KPIs.mk.injEq]

lemma computeKPIs_foldl (selY selM selD : String) (ds : List Sale) (acc : KPIs) :
    ds.foldl (kpiStep selY selM selD) acc =
      { dayTotal := acc.dayTotal + ((ds.filter (dayMatch selY selM selD)).map Sale.total).sum,
        dayCount := acc.dayCount + (ds.filter (dayMatch selY selM selD)).length,
        monthTotal := acc.monthTotal + ((ds.filter (monthMatch selY selM)).map Sale.total).sum,
        monthCount := acc.monthCount + (ds.filter (monthMatch selY selM)).length,
        yearTotal := acc.yearTotal + ((ds.filter (yearMatch selY)).map Sale.total).sum,
        yearCount := acc.yearCount + (ds.filter (yearMatch selY)).length } := by
  induction ds generalizing acc with
  | nil => simp
  | cons s rest ih =>
    rw [List.foldl_cons, ih, kpiStep_char]
    by_cases hd : dayMatch selY selM selD s = true <;>
      by_cases hm : monthMatch selY selM s = true <;>
        by_cases hy : yearMatch selY s = true <;>
          simp [hd, hm, hy, List.filter_cons, KPIs.mk.injEq, add_assoc] <;> omega

lemma computeKPIs_char (ds : List Sale) (selY selM selD : String) :
    computeKPIs ds selY selM selD =
      { dayTotal := ((ds.filter (dayMatch selY selM selD)).map Sale.total).sum,
        dayCount := (ds.filter (dayMatch selY selM selD)).length,
        monthTotal := ((ds.filter (monthMatch selY selM)).map Sale.total).sum,
        monthCount := (ds.filter (monthMatch selY selM)).length,
        yearTotal := ((ds.filter (yearMatch selY)).map Sale.total).sum,
        yearCount := (ds.filter (yearMatch selY)).length } := by
  rw [computeKPIs, computeKPIs_foldl]
  simp

lemma dayMatch_imp_monthMatch (selY selM selD : String) (s : Sale)
    (h : dayMatch selY selM selD s = true) : monthMatch selY selM s = true := by
  simp only [dayMatch, Bool.and_eq_true] at h
  exact h.1

lemma monthMatch_imp_yearMatch (selY selM : String) (s : Sale)
    (h : monthMatch selY selM s = true) : yearMatch selY s = true := by
  simp only [monthMatch, Bool.and_eq_true] at h
  exact h.1

lemma countP_mono_of_imp {α : Type} (p q : α → Bool) (l : List α)
    (h : ∀ a ∈ l, p a = true → q a = true) :
    (l.filter p).length ≤ (l.filter q).length := by
  induction l with
  | nil => simp
  | cons a rest ih =>
    have ih' := ih (fun b hb hpb => h b (List.mem_cons_of_mem _ hb) hpb)
    by_cases hp : p a = true
    · have hq := h a (List.mem_cons_self a rest) hp
      simp [List.filter_cons, hp, hq]
      omega
    · by_cases hq : q a = true <;> simp [List.filter_cons, hp, hq] <;> omega

/-- Claim C1: the KPI roll-up is strictly hierarchical.  The day bucket
predicate implies the month bucket predicate, which implies the year
bucket predicate; each KPI count is the number of records satisfying
its bucket predicate and each KPI total the sum of their totals, so the
day count never exceeds the month count, nor the month count the year
count.  And for a dataset all of whose records have an extracted date
equal to the full cursor date, the day, month and year counts coincide,
as do the day, month and year totals. -/
theorem C1_kpi_rollup_hierarchical (selY selM selD : String) (ds : List Sale) :
    (∀ s : Sale, dayMatch selY selM selD s = true → monthMatch selY selM s = true) ∧
    (∀ s : Sale, monthMatch selY selM s = true → yearMatch selY s = true) ∧
    (computeKPIs ds selY selM selD).dayCount = (ds.filter (dayMatch selY selM selD)).length ∧
    (computeKPIs ds selY selM selD).monthCount = (ds.filter (monthMatch selY selM)).length ∧
    (computeKPIs ds selY selM selD).yearCount = (ds.filter (yearMatch selY)).length ∧
    (computeKPIs ds selY selM selD).dayCount ≤ (computeKPIs ds selY selM selD).monthCount ∧
    (computeKPIs ds selY selM selD).monthCount ≤ (computeKPIs ds selY selM selD).yearCount ∧
    ('-' ∉ selY.data → '-' ∉ selM.data → '-' ∉ selD.data →
      (∀ s ∈ ds, extractDateOnly s = selectedDateStr selY selM selD) →
      (computeKPIs ds selY selM selD).dayCount = (computeKPIs ds selY selM selD).monthCount ∧
      (computeKPIs ds selY selM selD).monthCount = (computeKPIs ds selY selM selD).yearCount ∧
      (computeKPIs ds selY selM selD).dayTotal = (computeKPIs ds selY selM selD).monthTotal ∧
      (computeKPIs ds selY selM selD).monthTotal = (computeKPIs ds selY selM selD).yearTotal) := by
  have hchar := computeKPIs_char ds selY selM selD
  refine ⟨dayMatch_imp_monthMatch selY selM selD, monthMatch_imp_yearMatch selY selM,
    by rw [hchar], by rw [hchar], by rw [hchar], ?_, ?_, ?_⟩
  · rw [hchar]
    exact countP_mono_of_imp _ _ ds (fun a _ => dayMatch_imp_monthMatch selY selM selD a)
  · rw [hchar]
    exact countP_mono_of_imp _ _ ds (fun a _ => monthMatch_imp_yearMatch selY selM a)
  · intro hY hM hD hall
    have hcomp := dateComp_selectedDateStr selY selM selD hY hM hD
    have hday : ∀ s ∈ ds, dayMatch selY selM selD s = true := by
      intro s hs
      have he := hall s hs
      simp [dayMatch, monthMatch, yearMatch, he, hcomp.1, hcomp.2.1, hcomp.2.2,
        selectedDateStr_ne_empty selY selM selD]
    have hmonth : ∀ s ∈ ds, monthMatch selY selM s = true :=
      fun s hs => dayMatch_imp_monthMatch _ _ _ _ (hday s hs)
    have hyear : ∀ s ∈ ds, yearMatch selY s = true :=
      fun s hs => monthMatch_imp_yearMatch _ _ _ (hmonth s hs)
    rw [hchar]
    simp [List.filter_eq_self.mpr hday, List.filter_eq_self.mpr hmonth,
      List.filter_eq_self.mpr hyear]

/-- Concrete instance of claim C1's same-day equalities: one record
dated `2024-03-05` with the cursor at `(2024, 03, 05)`. -/
theorem C1_kpi_rollup_hierarchical_witness :
    (computeKPIs [wSale] "2024" "03" "05").dayCount =
      (computeKPIs [wSale] "2024" "03" "05").monthCount ∧
    (computeKPIs [wSale] "2024" "03" "05").monthCount =
      (computeKPIs [wSale] "2024" "03" "05").yearCount ∧
    (computeKPIs [wSale] "2024" "03" "05").dayTotal =
      (computeKPIs [wSale] "2024" "03" "05").monthTotal ∧
    (computeKPIs [wSale] "2024" "03" "05").monthTotal =
      (computeKPIs [wSale] "2024" "03" "05").yearTotal :=
  (C1_kpi_rollup_hierarchical "2024" "03" "05" [wSale]).2.2.2.2.2.2.2
    (by decide) (by decide) (by decide)
    (by intro s hs; simp only [List.mem_singleton] at hs; subst hs; decide)

lemma kpiStep_ext (selY selM selD : String) (acc : KPIs) (s₁ s₂ : Sale)
    (he : extractDateOnly s₁ = extractDateOnly s₂) (ht : s₁.total = s₂.total) :
    kpiStep selY selM selD acc s₁ = kpiStep selY selM selD acc s₂ := by
  simp only [kpiStep, he, ht]

lemma computeKPIs_congr_aux (selY selM selD : String) (ds₁ ds₂ : List Sale)
    (h : ds₁.map (fun s => (extractDateOnly s, s.total)) =
      ds₂.map (fun s => (extractDateOnly s, s.total))) (acc : KPIs) :
    ds₁.foldl (kpiStep selY selM selD) acc = ds₂.foldl (kpiStep selY selM selD) acc := by
  induction ds₁ generalizing ds₂ acc with
  | nil =>
    cases ds₂ with
    | nil => rfl
    | cons b bs => simp at h
  | cons a as ih =>
    cases ds₂ with
    | nil => simp at h
    | cons b bs =>
      simp only [List.map_cons, List.cons.injEq, Prod.mk.injEq] at h
      rw [List.foldl_cons, List.foldl_cons,
        kpiStep_ext selY selM selD acc a b h.1.1 h.1.2]
      exact ih bs h.2 _

lemma extractDateOnly_empty_of_no_date (s : Sale) (hd : s.date = "")
    (hc : s.createdAt = none) : extractDateOnly s = "" := by
  simp [extractDateOnly, hd, hc]

lemma kpiStep_skip (selY selM selD : String) (acc : KPIs) (s : Sale)
    (h : extractDateOnly s = "") : kpiStep selY selM selD acc s = acc := by
  simp [kpiStep, h]

lemma trendKey_skip (s : Sale) (h : extractDateOnly s = "") : trendKey s = none := by
  simp [trendKey, h]

lemma string_append_data (a b : String) : (a ++ b).data = a.data ++ b.data :=
  String.data_append a b

lemma mem_filteredRecent (ds : List Sale) (selY selM selD : String) (s : Sale) :
    s ∈ filteredRecent ds selY selM selD ↔
      s ∈ ds ∧ extractDateOnly s = selectedDateStr selY selM selD := by
  rw [filteredRecent]
  rw [(List.mergeSort_perm
    (ds.filter (fun s => extractDateOnly s == selectedDateStr selY selM selD)) timeDesc).mem_iff]
  simp [List.mem_filter]

/-- Claim C5: date extraction is total and normalising.  A date field
passing the `YYYY-MM-DD` test is returned verbatim; a date field of the
form `pre ++ "T" ++ post` not passing the test yields exactly `pre`
(so the timestamp form and the plain form of the same date extract
identically, as the concrete pair `2024-03-05T10:22:00Z` / `2024-03-05`
shows); an absent date falls back to the local-calendar date of the
creation timestamp; a record with neither resolves to `""` and is then
skipped by the KPI fold, skipped by the trend bucketing, and absent
from the filtered listing; and the KPI computation depends on a record
only through its extracted date and total, so records with equal
extracted dates and totals are counted identically. -/
theorem C5_date_extraction_normalising :
    (∀ s : Sale, matchesYMD s.date = true → extractDateOnly s = s.date) ∧
    (∀ (s : Sale) (pre post : String), s.date = pre ++ "T" ++ post → 'T' ∉ pre.data →
      matchesYMD s.date = false → extractDateOnly s = pre) ∧
    extractDateOnly wSaleT = "2024-03-05" ∧ extractDateOnly wSale = "2024-03-05" ∧
    (∀ (s : Sale) (d : LocalDate), s.date = "" → s.createdAt = some d →
      extractDateOnly s = formatLocalDate d) ∧
    (∀ s : Sale, s.date = "" → s.createdAt = none →
      extractDateOnly s = "" ∧
      (∀ (selY selM selD : String) (acc : KPIs),
        kpiStep selY selM selD acc s = acc) ∧
      trendKey s = none ∧
      (∀ (ds : List Sale) (selY selM selD : String),
        s ∉ filteredRecent ds selY selM selD)) ∧
    (∀ (ds₁ ds₂ : List Sale) (selY selM selD : String),
      ds₁.map (fun s => (extractDateOnly s, s.total)) =
        ds₂.map (fun s => (extractDateOnly s, s.total)) →
      computeKPIs ds₁ selY selM selD = computeKPIs ds₂ selY selM selD) := by
  refine ⟨?_, ?_, by decide, by decide, ?_, ?_, ?_⟩
  · intro s hm
    have hne : s.date ≠ "" := by
      intro h
      rw [h] at hm
      simp [matchesYMD] at hm
    simp [extractDateOnly, hm, hne]
  · intro s pre post hform hpre hm
    have hdata : s.date.data = pre.data ++ 'T' :: post.data := by
      rw [hform, string_append_data, string_append_data]
      show pre.data ++ ['T'] ++ post.data = pre.data ++ 'T' :: post.data
      simp
    have hne : s.date ≠ "" := by
      intro h
      rw [h] at hdata
      simp at hdata
    have hcontains : s.date.data.contains 'T' = true := by
      rw [hdata]
      simp [List.contains]
    rw [extractDateOnly]
    simp only [hm, Bool.and_false, hne, hcontains, bne_iff_ne, ne_eq,
      not_false_eq_true, Bool.and_true, if_false, if_true]
    rw [hdata, splitOnChar_append _ _ _ hpre]
    simp [strMkData]
  · intro s d hd hc
    simp [extractDateOnly, hd, hc]
  · intro s hd hc
    have he := extractDateOnly_empty_of_no_date s hd hc
    refine ⟨he, fun selY selM selD acc => kpiStep_skip _ _ _ _ _ he, trendKey_skip s he, ?_⟩
    intro ds selY selM selD hmem
    have := ((mem_filteredRecent ds selY selM selD s).mp hmem).2
    rw [he] at this
    exact selectedDateStr_ne_empty selY selM selD this.symm
  · intro ds₁ ds₂ selY selM selD h
    exact computeKPIs_congr_aux selY selM selD ds₁ ds₂ h _

/-- Concrete instance of claim C5's timestamp normalisation: the
record dated `2024-03-05T10:22:00Z` extracts to `2024-03-05`, the
portion before the `T`. -/
theorem C5_date_extraction_normalising_witness :
    extractDateOnly wSaleT = "2024-03-05" :=
  C5_date_extraction_normalising.2.1 wSaleT "2024-03-05" "10:22:00Z" (by decide) (by decide)
    (by decide)

lemma digitsOfCore_length (fuel : Nat) : ∀ n : Nat, n < fuel →
    (digitsOfCore fuel n).length = Nat.log 10 n + 1 := by
  induction fuel with
  | zero => intro n h; omega
  | succ fuel ih =>
    intro n h
    rw [digitsOfCore]
    by_cases hn : n < 10
    · simp [hn, Nat.log_eq_zero_iff.mpr (Or.inl hn)]
    · have hdiv : n / 10 < n := Nat.div_lt_self (by omega) (by omega)
      have hlog : 0 < Nat.log 10 n := Nat.log_pos (by omega) (by omega)
      have hrec := Nat.log_div_base 10 n
      simp [hn, ih (n / 10) (by omega)]
      omega

lemma natToStr_length (n : Nat) : (natToStr n).length = Nat.log 10 n + 1 := by
  show (digitsOf n).length = Nat.log 10 n + 1
  exact digitsOfCore_length (n + 1) n (by omega)

lemma natToStr_length_four (y : Nat) (h1 : 1000 ≤ y) (h2 : y < 10000) :
    (natToStr y).length = 4 := by
  rw [natToStr_length]
  have : Nat.log 10 y = 3 :=
    Nat.log_eq_of_pow_le_of_lt_pow (by norm_num; omega) (by norm_num; omega)
  omega

lemma jsSlice2_natToStr_length (y : Nat) (h1 : 1000 ≤ y) (h2 : y < 10000) :
    (jsSlice2 (natToStr y)).length = 2 := by
  have h4 := natToStr_length_four y h1 h2
  show ((natToStr y).data.drop 2).length = 2
  have : (natToStr y).data.length = 4 := h4
  simp [List.length_drop, this]

lemma monthAbbrev_length (m : Nat) (h1 : 1 ≤ m) (h2 : m ≤ 12) :
    (jsTake3 (getMonthName (pad2 m))).length = 3 := by
  interval_cases m <;> decide

lemma lookup_insertAdd_ne (m : List (String × ℚ)) (k k' : String) (v : ℚ) (h : k ≠ k') :
    (insertAdd m k v).lookup k' = m.lookup k' := by
  have hb : (k' == k) = false := beq_eq_false_iff_ne.mpr (Ne.symm h)
  induction m with
  | nil => simp [insertAdd, List.lookup, hb]
  | cons p rest ih =>
    obtain ⟨k₀, v₀⟩ := p
    by_cases hk : k₀ = k
    · subst hk
      simp [insertAdd, List.lookup, hb]
    · simp [insertAdd, hk, List.lookup, ih]

lemma buildTotals_lookup_none_aux (ds : List Sale) (k : String) :
    ∀ m : List (String × ℚ), m.lookup k = none → (∀ s ∈ ds, trendKey s ≠ some k) →
    (ds.foldl
      (fun m s =>
        match trendKey s with
        | none => m
        | some k' => insertAdd m k' s.total) m).lookup k = none := by
  induction ds with
  | nil => intro m hm _; exact hm
  | cons s rest ih =>
    intro m hm hall
    rw [List.foldl_cons]
    have hs := hall s (List.mem_cons_self s rest)
    have hrest : ∀ x ∈ rest, trendKey x ≠ some k :=
      fun x hx => hall x (List.mem_cons_of_mem _ hx)
    cases hk : trendKey s with
    | none => exact ih m (by simpa [hk] using hm) hrest
    | some k' =>
      have hne : k' ≠ k := by
        intro h; exact hs (by rw [hk, h])
      refine ih _ ?_ hrest
      rw [lookup_insertAdd_ne _ _ _ _ hne]
      exact hm

lemma mapGetD_buildTotals_zero (ds : List Sale) (k : String)
    (h : ∀ s ∈ ds, trendKey s ≠ some k) : mapGetD (buildTotals ds) k = 0 := by
  rw [mapGetD, buildTotals, buildTotals_lookup_none_aux ds k [] (by simp [List.lookup]) h]
  rfl

lemma getD_map_range {β : Type} (f : Nat → β) (n i : Nat) (d : β) (h : i < n) :
    (((List.range n).map f).getD i d) = f i := by
  rw [List.getD, List.get?_eq_getElem?, List.getElem?_map, List.getElem?_range h]
  rfl

lemma monthlySeries_entry (ds : List Sale) (nowY nowM i : Nat) (h : i < 6) :
    (monthlySeries ds nowY nowM).getD i seriesDefault =
      { key := natToStr (seriesYM nowY nowM i).1 ++ "-" ++ pad2 (seriesYM nowY nowM i).2
        label := jsTake3 (getMonthName (pad2 (seriesYM nowY nowM i).2)) ++ " " ++
          jsSlice2 (natToStr (seriesYM nowY nowM i).1)
        value := mapGetD (buildTotals ds)
          (natToStr (seriesYM nowY nowM i).1 ++ "-" ++ pad2 (seriesYM nowY nowM i).2)
        isCurrent := i == 5 } := by
  rw [monthlySeries]
  exact getD_map_range _ 6 i _ h

lemma seriesYM_fst (nowY nowM i : Nat) :
    (seriesYM nowY nowM i).1 = (nowY * 12 + (nowM - 1) - 5 + i) / 12 := rfl

lemma seriesYM_snd (nowY nowM i : Nat) :
    (seriesYM nowY nowM i).2 = (nowY * 12 + (nowM - 1) - 5 + i) % 12 + 1 := rfl

/-- Claim C2: for every dataset and anchored at the real current month
`(nowY, nowM)` — the series takes no cursor argument, so it is the same
whatever the cursor — the trend series has exactly 6 entries; the
`i`-th entry is keyed by the `(year, month)` pair `seriesYM nowY nowM i`,
these pairs are consecutive calendar months, and the last one is the
current month itself; each entry is labeled by the 3-letter month
abbreviation and the 2-digit year; and an entry whose `(year, month)`
bucket no record resolves to has value 0. -/
theorem C2_trend_series_shape (ds : List Sale) (nowY nowM : Nat)
    (hm1 : 1 ≤ nowM) (hm2 : nowM ≤ 12) (hy1 : 2000 ≤ nowY) (hy2 : nowY < 10000) :
    (monthlySeries ds nowY nowM).length = 6 ∧
    seriesYM nowY nowM 5 = (nowY, nowM) ∧
    (∀ i, i < 5 → seriesYM nowY nowM (i + 1) = nextMonth (seriesYM nowY nowM i)) ∧
    (∀ i, i < 6 →
      ((monthlySeries ds nowY nowM).getD i seriesDefault).key =
        natToStr (seriesYM nowY nowM i).1 ++ "-" ++ pad2 (seriesYM nowY nowM i).2 ∧
      1 ≤ (seriesYM nowY nowM i).2 ∧ (seriesYM nowY nowM i).2 ≤ 12 ∧
      ((monthlySeries ds nowY nowM).getD i seriesDefault).label =
        jsTake3 (getMonthName (pad2 (seriesYM nowY nowM i).2)) ++ " " ++
          jsSlice2 (natToStr (seriesYM nowY nowM i).1) ∧
      (jsTake3 (getMonthName (pad2 (seriesYM nowY nowM i).2))).length = 3 ∧
      (jsSlice2 (natToStr (seriesYM nowY nowM i).1)).length = 2 ∧
      ((monthlySeries ds nowY nowM).getD i seriesDefault).isCurrent = (i == 5) ∧
      ((∀ s ∈ ds,
          trendKey s ≠ some ((monthlySeries ds nowY nowM).getD i seriesDefault).key) →
        ((monthlySeries ds nowY nowM).getD i seriesDefault).value = 0)) := by
  refine ⟨by simp [monthlySeries], ?_, ?_, ?_⟩
  · rw [Prod.ext_iff, seriesYM_fst, seriesYM_snd]
    constructor <;> omega
  · intro i hi
    rw [Prod.ext_iff]
    simp only [nextMonth, seriesYM_fst, seriesYM_snd]
    split_ifs with h12 <;> constructor <;> simp <;> omega
  · intro i hi
    have hentry := monthlySeries_entry ds nowY nowM i hi
    have hmr1 : 1 ≤ (seriesYM nowY nowM i).2 := by rw [seriesYM_snd]; omega
    have hmr2 : (seriesYM nowY nowM i).2 ≤ 12 := by rw [seriesYM_snd]; omega
    have hyr1 : 1000 ≤ (seriesYM nowY nowM i).1 := by rw [seriesYM_fst]; omega
    have hyr2 : (seriesYM nowY nowM i).1 < 10000 := by rw [seriesYM_fst]; omega
    refine ⟨by rw [hentry], hmr1, hmr2, by rw [hentry], monthAbbrev_length _ hmr1 hmr2,
      jsSlice2_natToStr_length _ hyr1 hyr2, by rw [hentry], ?_⟩
    intro hnone
    rw [hentry] at hnone ⊢
    exact mapGetD_buildTotals_zero ds _ hnone

/-- Concrete instance of claim C2: for the empty dataset at
October 2025 the series has six entries and its last bucket is the
current month. -/
theorem C2_trend_series_shape_witness :
    (monthlySeries [] 2025 10).length = 6 ∧ seriesYM 2025 10 5 = (2025, 10) :=
  ⟨(C2_trend_series_shape [] 2025 10 (by omega) (by omega) (by omega) (by omega)).1,
    (C2_trend_series_shape [] 2025 10 (by omega) (by omega) (by omega) (by omega)).2.1⟩

/-- Claim C3: the month-over-month delta classification.  Two zero
totals give the neutral copy; a zero previous total with a positive
current total gives the qualitative new indicator (no percentage is
computed); a positive previous total gives a directional marker and the
absolute value of the signed percentage change `100 * (c - p) / p`
rendered to one decimal; in particular `(1000, 1500)` renders as a
`+50.0%` rise and `(1000, 500)` as a `-50.0%` fall. -/
theorem C3_delta_classification (p c : ℚ) :
    deltaCopy 0 0 = "— vs last month" ∧
    (0 < c → deltaCopy 0 c = "▲ New vs last month") ∧
    (0 < p → deltaCopy p c =
      (if c - p ≥ 0 then "▲ " else "▼ ") ++ toFixed1 |100 * (c - p) / p| ++
        "% vs last month") ∧
    deltaCopy 1000 1500 = "▲ 50.0% vs last month" ∧
    deltaCopy 1000 500 = "▼ 50.0% vs last month" := by
  refine ⟨by norm_num [deltaCopy], ?_, ?_, ?_, ?_⟩
  · intro hc
    simp [deltaCopy, hc]
  · intro hp
    have hp0 : p ≠ 0 := ne_of_gt hp
    have harg : (c - p) / p * 100 = 100 * (c - p) / p := by ring
    simp only [deltaCopy]
    rw [if_neg (fun h => hp0 h.1), if_neg (fun h => hp0 h.1), if_pos hp, harg]
  · rw [deltaCopy]
    norm_num
    rw [toFixed1]
    norm_num
    rfl
  · rw [deltaCopy]
    norm_num
    rw [toFixed1]
    norm_num
    rfl

/-- Concrete instance of claim C3's percentage clause at
`(previous, current) = (1000, 1500)`. -/
theorem C3_delta_classification_witness :
    deltaCopy 1000 1500 =
      (if (1500 : ℚ) - 1000 ≥ 0 then "▲ " else "▼ ") ++
        toFixed1 |100 * ((1500 : ℚ) - 1000) / 1000| ++ "% vs last month" :=
  (C3_delta_classification 1000 1500).2.2.1 (by norm_num)

/-- Claim C4: offline login against the single-slot cache written for
`(e, p)` succeeds — returning exactly the cached minimal user record —
if and only if the attempt supplies email `e` and a password whose
digest under the cached salt equals the cached digest; the outcome is
always either that success or the single failure value `none`, and a
missing cache entry also yields `none`, so no failure cause is
distinguishable from another. -/
theorem C4_offline_login_iff (env : CryptoEnv) (salt : List Nat) (e p : String)
    (u : CachedUser) (sess : CachedSession) (e' p' : String)
    (hpersist : persistOfflineSession env salt e p u = some sess) :
    (tryOfflineSessionLogin env (some sess) e' p' = some u ↔
      e' = e ∧ hashWithSalt env p' salt = hashWithSalt env p salt) ∧
    (tryOfflineSessionLogin env (some sess) e' p' = some u ∨
      tryOfflineSessionLogin env (some sess) e' p' = none) ∧
    tryOfflineSessionLogin env none e' p' = none := by
  rw [persistOfflineSession] at hpersist
  by_cases hb : (!env.isBrowser || !env.hasSubtle) = true
  · rw [if_pos hb] at hpersist
    exact absurd hpersist (by simp)
  · rw [if_neg hb] at hpersist
    have hbr : env.isBrowser = true := by
      simp only [Bool.or_eq_true, Bool.not_eq_true'] at hb
      push_neg at hb
      simpa using hb.1
    have hsess : sess = CachedSession.mk e salt (hashWithSalt env p salt) u := by
      exact (Option.some.injEq _ _).mp hpersist |>.symm
    subst hsess
    refine ⟨?_, ?_, by simp [tryOfflineSessionLogin, hbr]⟩
    · constructor
      · intro h
        rw [tryOfflineSessionLogin] at h
        simp only [hbr, Bool.not_true, Bool.false_eq_true, if_false] at h
        by_cases he : (e : String) != e'
        · rw [if_pos he] at h
          exact absurd h (by simp)
        · rw [if_neg he] at h
          have he' : e = e' := by simpa using he
          by_cases hh : hashWithSalt env p' salt != hashWithSalt env p salt
          · rw [if_pos hh] at h
            exact absurd h (by simp)
          · exact ⟨he'.symm, by simpa using hh⟩
      · rintro ⟨he, hh⟩
        subst he
        simp [tryOfflineSessionLogin, hbr, hh]
    · rw [tryOfflineSessionLogin]
      simp only [hbr, Bool.not_true, Bool.false_eq_true, if_false]
      by_cases he : (e : String) != e'
      · simp [he]
      · rw [if_neg he]
        by_cases hh : hashWithSalt env p' salt != hashWithSalt env p salt
        · simp [hh]
        · simp [hh]

/-- Concrete instance of claim C4: in a full crypto environment the
cache written for `("alice@x.com", "pw1")` replays successfully for
exactly that email and password, reconstructing the cached identity. -/
theorem C4_offline_login_iff_witness :
    tryOfflineSessionLogin wEnv (some wSess) "alice@x.com" "pw1" = some wUser :=
  (C4_offline_login_iff wEnv [0] "alice@x.com" "pw1" wUser wSess "alice@x.com" "pw1"
    (by rfl)).1.mpr ⟨rfl, rfl⟩

/-- Claim C10 (implicit): when `TextEncoder` or `window.crypto.subtle`
is unavailable, `hashWithSalt` returns its input unchanged for every
salt; offline verification in such an environment therefore degrades to
plaintext string equality of the supplied password against the stored
digest; and in the one such environment in which a cache entry is still
written — `TextEncoder` missing but subtle crypto available, inside a
browser — the stored digest is the plaintext password itself.  (When
subtle crypto is unavailable `persistOfflineSession` writes nothing at
all, so no entry with a hashed digest can arise there.) -/
theorem C10_hash_fallback_plaintext (env : CryptoEnv)
    (hfall : env.hasTextEncoder = false ∨ env.hasSubtle = false) :
    (∀ (v : String) (salt : List Nat), hashWithSalt env v salt = v) ∧
    (∀ (sess : CachedSession) (e' p' : String),
      tryOfflineSessionLogin env (some sess) e' p' = some sess.user ↔
        (env.isBrowser = true ∧ sess.email = e' ∧ p' = sess.hash)) ∧
    (env.isBrowser = true → env.hasSubtle = true →
      ∀ (salt : List Nat) (e p : String) (u : CachedUser),
        persistOfflineSession env salt e p u =
          some { email := e, salt := salt, hash := p, user := u }) := by
  have hid : ∀ (v : String) (salt : List Nat), hashWithSalt env v salt = v := by
    intro v salt
    rcases hfall with h | h <;> simp [hashWithSalt, h]
  refine ⟨hid, ?_, ?_⟩
  · intro sess e' p'
    constructor
    · intro h
      rw [tryOfflineSessionLogin] at h
      by_cases hbr : env.isBrowser = true
      · simp only [hbr, Bool.not_true, Bool.false_eq_true, if_false] at h
        by_cases he : sess.email != e'
        · rw [if_pos he] at h
          exact absurd h (by simp)
        · rw [if_neg he] at h
          by_cases hh : hashWithSalt env p' sess.salt != sess.hash
          · rw [if_pos hh] at h
            exact absurd h (by simp)
          · have hh' : hashWithSalt env p' sess.salt = sess.hash := by simpa using hh
            rw [hid p' sess.salt] at hh'
            exact ⟨hbr, by simpa using he, hh'⟩
      · have hbr' : env.isBrowser = false := by
          cases hfb : env.isBrowser
          · rfl
          · exact absurd hfb hbr
        simp [hbr'] at h
    · rintro ⟨hbr, he, hh⟩
      subst hh
      subst he
      rw [tryOfflineSessionLogin]
      simp [hbr, hid]
  · intro hbr hsub salt e p u
    rw [persistOfflineSession]
    simp [hbr, hsub, hid]

/-- Concrete instance of claim C10: in a browser without `TextEncoder`
but with subtle crypto, the cache entry written for
`("alice@x.com", "pw1")` stores the plaintext password as its digest. -/
theorem C10_hash_fallback_plaintext_witness :
    persistOfflineSession wEnvNoEncoder [0] "alice@x.com" "pw1" wUser =
      some { email := "alice@x.com", salt := [0], hash := "pw1", user := wUser } :=
  (C10_hash_fallback_plaintext wEnvNoEncoder (Or.inl rfl)).2.2 rfl rfl [0] "alice@x.com"
    "pw1" wUser

lemma timeDesc_trans (a b c : Sale) (hab : timeDesc a b = true) (hbc : timeDesc b c = true) :
    timeDesc a c = true := by
  simp only [timeDesc, decide_eq_true_eq] at *
  exact le_trans hbc hab

lemma timeDesc_total (a b : Sale) : (timeDesc a b || timeDesc b a) = true := by
  simp only [timeDesc, Bool.or_eq_true, decide_eq_true_eq]
  exact le_total (timeOf b) (timeOf a)

/-- Claim C6: the filtered listing contains exactly the records of the
dataset whose extracted date equals the full cursor date; it is sorted
by time-of-day descending under lexicographic string comparison, the
sort key being `s.time || ''` so records lacking a time sort as the
empty string; 12 filtered records paginate into pages of sizes
`[5, 5, 2]` with 1-based indexing and page count 3; and a change of any
cursor selector resets the current page to 1. -/
theorem C6_listing_sort_pagination (ds : List Sale) (selY selM selD : String) :
    (∀ s : Sale, s ∈ filteredRecent ds selY selM selD ↔
      s ∈ ds ∧ extractDateOnly s = selectedDateStr selY selM selD) ∧
    List.Pairwise (fun a b => timeOf b ≤ timeOf a) (filteredRecent ds selY selM selD) ∧
    (∀ s : Sale, timeOf s = s.time.getD "") ∧
    ((filteredRecent ds selY selM selD).length = 12 →
      (paginatedRecent ds selY selM selD 1).length = 5 ∧
      (paginatedRecent ds selY selM selD 2).length = 5 ∧
      (paginatedRecent ds selY selM selD 3).length = 2 ∧
      totalPages ds selY selM selD = 3) ∧
    (∀ (st : DashboardState) (y : String), y ≠ st.selectedYear →
      (setSelectedYear st y).currentPage = 1) ∧
    (∀ (st : DashboardState) (m : String), m ≠ st.selectedMonth →
      (setSelectedMonth st m).currentPage = 1) ∧
    (∀ (st : DashboardState) (d : String), d ≠ st.selectedDay →
      (setSelectedDay st d).currentPage = 1) := by
  refine ⟨mem_filteredRecent ds selY selM selD, ?_, fun s => rfl, ?_, ?_, ?_, ?_⟩
  · have hs := List.sorted_mergeSort timeDesc_trans timeDesc_total
      (ds.filter (fun s => extractDateOnly s == selectedDateStr selY selM selD))
    exact hs.imp (fun h => by simpa [timeDesc, decide_eq_true_eq] using h)
  · intro h12
    refine ⟨?_, ?_, ?_, ?_⟩ <;>
      simp [paginatedRecent, totalPages, RECORDS_PER_PAGE, List.length_take,
        List.length_drop, h12]
  · intro st y h
    simp [setSelectedYear, h]
  · intro st m h
    simp [setSelectedMonth, h]
  · intro st d h
    simp [setSelectedDay, h]

/-- Concrete instance of claim C6's pagination clause: 12 records dated
on the cursor date give pages of sizes 5, 5 and 2 and a page count
of 3. -/
theorem C6_listing_sort_pagination_witness :
    (paginatedRecent (List.replicate 12 wSale) "2024" "03" "05" 1).length = 5 ∧
    (paginatedRecent (List.replicate 12 wSale) "2024" "03" "05" 2).length = 5 ∧
    (paginatedRecent (List.replicate 12 wSale) "2024" "03" "05" 3).length = 2 ∧
    totalPages (List.replicate 12 wSale) "2024" "03" "05" = 3 :=
  (C6_listing_sort_pagination (List.replicate 12 wSale) "2024" "03" "05").2.2.2.1
    (by rw [filteredRecent, (List.mergeSort_perm _ _).length_eq]; decide)

lemma collapseQuotes_cons_ne (c : Char) (l : List Char) (h : ¬ c = '"') :
    collapseQuotes (c :: l) = c :: collapseQuotes l := by
  cases l with
  | nil => rfl
  | cons d rest =>
    rw [collapseQuotes, if_neg]
    rintro ⟨hc, _⟩
    exact h hc

lemma collapseQuotes_escBody (l t : List Char) :
    collapseQuotes (escBody l ++ t) = l ++ collapseQuotes t := by
  induction l with
  | nil => simp [escBody]
  | cons c cs ih =>
    by_cases hc : c = '"'
    · subst hc
      rw [escBody, if_pos rfl]
      show collapseQuotes ('"' :: '"' :: (escBody cs ++ t)) = _
      rw [collapseQuotes, if_pos ⟨rfl, rfl⟩, ih]
      rfl
    · rw [escBody, if_neg hc]
      show collapseQuotes (c :: (escBody cs ++ t)) = _
      rw [collapseQuotes_cons_ne c _ hc, ih]
      rfl

/-- Claim C7: CSV escaping round-trips.  Un-escaping an `esc`-emitted
cell (strip the enclosing quotes, collapse doubled quotes) recovers the
original field value for every string; in particular for the date cell
with its additional `="..."` anti-auto-conversion wrapper, and for a
product name containing double-quote characters. -/
theorem C7_csv_escape_roundtrip :
    (∀ v : String, csvUnescape (esc v) = v) ∧
    (∀ d : String, csvUnescape (esc (dateCell d)) = dateCell d) ∧
    csvUnescape (esc "No\"yis \"Premium\"") = "No\"yis \"Premium\"" := by
  have hrt : ∀ v : String, csvUnescape (esc v) = v := by
    intro v
    have hdata : (esc v).data = '"' :: (escBody v.data ++ ['"']) := rfl
    rw [csvUnescape, if_pos]
    · rw [hdata]
      show String.mk (collapseQuotes ((escBody v.data ++ ['"']).dropLast)) = v
      rw [show escBody v.data ++ ['"'] = escBody v.data ++ ['"'] from rfl,
        List.dropLast_concat]
      have := collapseQuotes_escBody v.data []
      rw [List.append_nil] at this
      rw [this, show collapseQuotes ([] : List Char) = [] from rfl, List.append_nil,
        strMkData]
    · refine ⟨by rw [hdata]; rfl, ?_, ?_⟩
      · rw [hdata]
        show (('"' :: escBody v.data) ++ ['"']).getLast? = some '"'
        exact List.getLast?_concat _
      · rw [hdata]
        simp
  exact ⟨hrt, fun d => hrt (dateCell d), hrt _⟩

/-- Claim C8: every sale record written by the sales-entry form
satisfies `total = price * unit` at the moment of writing.  On create,
the document `addSale` writes carries the form's memoised price (the
selected flavor's unit price) and total, passed through verbatim by the
store; on edit, the record after `updateSale` applies the form's update
object satisfies the same invariant. -/
theorem C8_total_invariant_at_write (products : List Product) (product flavor : String)
    (unit : Nat) (paymentMode : String) (newId uid : String) (userEmail : Option String)
    (nowDate nowTime : String) (createdAt : Option LocalDate) (editingSale : Sale) :
    (addSaleDoc newId uid userEmail nowDate nowTime createdAt
        (formCreatePayload products product flavor unit paymentMode)).total =
      (addSaleDoc newId uid userEmail nowDate nowTime createdAt
        (formCreatePayload products product flavor unit paymentMode)).price *
      ((addSaleDoc newId uid userEmail nowDate nowTime createdAt
        (formCreatePayload products product flavor unit paymentMode)).unit : ℚ) ∧
    (addSaleDoc newId uid userEmail nowDate nowTime createdAt
        (formCreatePayload products product flavor unit paymentMode)).total =
      (formCreatePayload products product flavor unit paymentMode).total ∧
    (addSaleDoc newId uid userEmail nowDate nowTime createdAt
        (formCreatePayload products product flavor unit paymentMode)).price =
      priceFor products product flavor ∧
    (applyUpdateSale editingSale
        (formEditUpdates products product flavor unit paymentMode editingSale)).total =
      (applyUpdateSale editingSale
        (formEditUpdates products product flavor unit paymentMode editingSale)).price *
      ((applyUpdateSale editingSale
        (formEditUpdates products product flavor unit paymentMode editingSale)).unit : ℚ) := by
  refine ⟨?_, rfl, rfl, ?_⟩ <;>
    simp [addSaleDoc, formCreatePayload, formTotal, applyUpdateSale, formEditUpdates]

/-- Claim C9: the sale-edit flow is frame-bounded.  Whatever partial
update object is passed to `updateSale` — even one naming `id`,
`userId`, `userEmail` or `createdAt` — the applied record keeps the
original `id`, owning `userId`, `userEmail` and creation timestamp;
only the eight allow-listed fields can differ. -/
theorem C9_updateSale_frame (r : Sale) (u : SaleUpdates) :
    (applyUpdateSale r u).id = r.id ∧
    (applyUpdateSale r u).userId = r.userId ∧
    (applyUpdateSale r u).userEmail = r.userEmail ∧
    (applyUpdateSale r u).createdAt = r.createdAt :=
  ⟨rfl, rfl, rfl, rfl⟩
